import Mathlib

/-!
Verification of the resilient request pipeline of the anytype-go client:
the middleware chain, the two retry engines (`pkg/anytype/list.go` and the
middleware package), the disconnect tracker and the logging middleware.

Durations are modelled in nanoseconds as `Int` (Go `time.Duration` is an
`int64` count of nanoseconds); `float64` arithmetic is modelled exactly over
`ℚ` with the float-to-integer conversion as truncation; the jitter random
draw and the Go standard-library parsers (`strconv.Atoi`, `http.ParseTime`)
are oracle parameters of the embedding, since they live outside the
repository.
-/

namespace AnytypeGo

/-- Body bytes of a request. -/
abbrev Bytes := List Nat

/-- Slice of an `*http.Response` relevant to the retry pipeline: its status
code and the value of its "Retry-After" header (`""` when absent, as
returned by `http.Header.Get`). -/
structure Response where
  statusCode : Nat
  retryAfter : String
deriving DecidableEq, Repr

/-- Go `error` values distinguished by the pipeline: a `net.Error`, a
`*url.Error` wrapping a `net.Error`, the context-cancellation error, or any
other error carrying only a message. -/
inductive GoErr where
  | netError
  | urlNetError
  | ctxCanceled
  | otherError (msg : String)
deriving DecidableEq, Repr

/-- `RetryOptions` of `pkg/anytype/list.go` (lines 677-693). Durations in
nanoseconds; the `float64` backoff factor is modelled exactly as a rational. -/
structure RetryOptions where
  MaxRetries : Nat
  MinRetryDelay : Int
  MaxRetryDelay : Int
  RetryableStatusCodes : List Nat
  RetryBackoffFactor : Rat
  RetryJitter : Int

/-- `DefaultRetryOptions` of `pkg/anytype/list.go` (lines 695-712). -/
def DefaultRetryOptions : RetryOptions :=
  { MaxRetries := 6
    MinRetryDelay := 200000000
    MaxRetryDelay := 30000000000
    RetryableStatusCodes := [408, 429, 500, 502, 503, 504]
    RetryBackoffFactor := 2
    RetryJitter := 100000000 }

/-- Floor of the exact product `(x : ℚ) * q`, computed over the integers:
`⌊x * (num/den)⌋ = (x * num).ediv den`, since the denominator of a rational
is positive and `Int.ediv` is floor division. -/
def floorMulRat (x : Int) (q : Rat) : Int := x * q.num / (q.den : Int)

/-- Non-jitter part of `calculateBackoffDelay` (`list.go` lines 823-832):
`backoffMs := float64(MinRetryDelay.Milliseconds()) * math.Pow(factor, attempt)`,
`delay := time.Duration(backoffMs) * time.Millisecond`, then capped at
`MaxRetryDelay`. `Milliseconds()` is integer division by 10^6; the float64
product is modelled as the exact rational `ms * (num/den)^attempt` and the
float64-to-Duration conversion truncates, which on these non-negative inputs
is the floor `(ms * num^attempt).ediv (den^attempt)`. -/
def calculateBackoffBase (options : RetryOptions) (attempt : Nat) : Int :=
  let ms := options.MinRetryDelay / 1000000
  let backoffMsFloor :=
    ms * options.RetryBackoffFactor.num ^ attempt / (options.RetryBackoffFactor.den : Int) ^ attempt
  let delay := backoffMsFloor * 1000000
  if options.MaxRetryDelay < delay then options.MaxRetryDelay else delay

/-- `calculateBackoffDelay` (`list.go` lines 823-841). `u` is the random
multiplier `math.Float64frombits(FastRand()&0x7FFFFF) / float64(0x7FFFFF)`,
a (tiny) value in `[0, 1]`, abstracted as an oracle draw per attempt. -/
def calculateBackoffDelay (options : RetryOptions) (attempt : Nat) (u : Rat) : Int :=
  let delay := calculateBackoffBase options attempt
  if 0 < options.RetryJitter then delay + floorMulRat options.RetryJitter u else delay

/-- `calculateRetryAfterDelay` (`list.go` lines 801-821). `atoi` models
`strconv.Atoi` (integer seconds), `parseTime` models `http.ParseTime`
returning the parsed absolute time in nanoseconds, and `now` the current
time, so that `time.Until(date) = date - now`. -/
def calculateRetryAfterDelay (atoi : String → Option Int) (parseTime : String → Option Int)
    (now : Int) (resp : Response) (options : RetryOptions) (attempt : Nat) (u : Rat) : Int :=
  if resp.retryAfter ≠ "" then
    match atoi resp.retryAfter with
    | some seconds => seconds * 1000000000
    | none =>
      match parseTime resp.retryAfter with
      | some date => if 0 < date - now then date - now else calculateBackoffDelay options attempt u
      | none => calculateBackoffDelay options attempt u
  else calculateBackoffDelay options attempt u

/-- `RetryConfig` of the middleware package retry engine (part_005). -/
structure RetryConfig where
  MaxRetries : Nat
  RetryDelay : Int
  MaxRetryDelay : Int
  RetryableStatusCodes : List Nat

/-- `DefaultRetryConfig` of the middleware package (part_005). -/
def DefaultRetryConfig : RetryConfig :=
  { MaxRetries := 5
    RetryDelay := 200000000
    MaxRetryDelay := 30000000000
    RetryableStatusCodes := [408, 429, 500, 502, 503, 504] }

/-- Reinterpretation of an integer as a Go `int64`: reduce modulo `2^64`
into `[-2^63, 2^63)`. -/
def wrap64 (x : Int) : Int := (x + 2 ^ 63) % 2 ^ 64 - 2 ^ 63

/-- `exponentialBackoff` of the middleware package (part_005 lines 143-150):
`delay := baseDelay * (1 << uint(retry)); if delay > maxDelay { delay = maxDelay }`.
`baseDelay` and `maxDelay` are `time.Duration` (`int64`), so the shift and
the multiplication wrap modulo `2^64` (Go shifts behave as repeated
single-bit shifts, so a shift count of 64 or more yields 0). -/
def exponentialBackoff (baseDelay : Int) (retry : Nat) (maxDelay : Int) : Int :=
  let delay := wrap64 (baseDelay * wrap64 (2 ^ retry))
  if maxDelay < delay then maxDelay else delay

/-- Default `ShouldRetry` installed by `NewRetryMiddleware` of `list.go`
(lines 717-736): retry on any non-nil error, otherwise retry when the
status code is one of the configured retryable codes. (When both the error
and the response are nil Go would dereference a nil response; the default
predicate is only consulted on actual outcomes, where the response is
non-nil whenever the error is nil.) -/
def listDefaultShouldRetry (options : RetryOptions) (resp : Option Response) (err : Option GoErr) : Bool :=
  match err with
  | some _ => true
  | none =>
    match resp with
    | some r => options.RetryableStatusCodes.contains r.statusCode
    | none => false

/-- `defaultShouldRetry` of the middleware package (part_005 lines 107-128):
retry on any non-nil error, otherwise on the hard-coded status switch
408, 429, 500, 502, 503, 504 (`Config.RetryableStatusCodes` is not consulted). -/
def defaultShouldRetry (resp : Option Response) (err : Option GoErr) : Bool :=
  if err.isSome then true
  else
    match resp with
    | some r => [408, 429, 500, 502, 503, 504].contains r.statusCode
    | none => false

/-- Oracles of one logical call through a retry engine: the behaviour of the
base Transport on its i-th invocation (`base i`, 0-based), whether the
call's context is already cancelled when the engine checks `ctx.Done()`
during the wait following invocation i (`ctxDone i`), the random jitter
draw of attempt i (`rand i`), the standard-library parsers and the current
time for "Retry-After" handling. -/
structure RetryEnv where
  base : Nat → Option Response × Option GoErr
  ctxDone : Nat → Bool
  rand : Nat → Rat
  atoi : String → Option Int
  parseTime : String → Option Int
  now : Int

/-- Outcome of one logical call through a retry engine: the returned
response/error pair, the body snapshot each base invocation observed
(`none` = request without body; `some bs` = a readable body holding exactly
the bytes `bs`), and the delays the engine actually slept. -/
structure EngineResult where
  resp : Option Response
  err : Option GoErr
  observed : List (Option Bytes)
  waits : List Int
deriving DecidableEq, Repr

/-- Retry loop of `NewRetryMiddleware` in `pkg/anytype/list.go` (lines
754-795), one iteration per `attempt`. `originalBody` is the byte slice
captured by `io.ReadAll(req.Body)` before the loop; `body` is the readable
content of `req.Body` at the top of the iteration (the source resets it
from `originalBody` only when `attempt > 0`). `fuel` is
`MaxRetries + 1 - attempt`, so the structural recursion mirrors
`for attempt := 0; attempt <= options.MaxRetries; attempt++`. -/
def listRetryLoop (options : RetryOptions) (sr : Option Response → Option GoErr → Bool)
    (env : RetryEnv) (originalBody : Option Bytes) :
    Nat → Nat → Option Bytes → List (Option Bytes) → List Int → EngineResult
  | 0, _, _, obs, waits => ⟨none, none, obs, waits⟩
  | fuel + 1, attempt, body, obs, waits =>
    let body := if attempt != 0 && originalBody.isSome then originalBody else body
    let r := env.base attempt
    let obs := obs ++ [body]
    if r.2.isSome || !(sr r.1 r.2) then ⟨r.1, r.2, obs, waits⟩
    else if attempt == options.MaxRetries then ⟨r.1, r.2, obs, waits⟩
    else
      let retryAfter :=
        match r.1 with
        | some resp =>
          if resp.statusCode == 429 then
            calculateRetryAfterDelay env.atoi env.parseTime env.now resp options attempt (env.rand attempt)
          else calculateBackoffDelay options attempt (env.rand attempt)
        | none => calculateBackoffDelay options attempt (env.rand attempt)
      if env.ctxDone attempt then ⟨none, some .ctxCanceled, obs, waits⟩
      else listRetryLoop options sr env originalBody fuel (attempt + 1) body obs (waits ++ [retryAfter])

/-- One call through the `RoundTripFunc` returned by `NewRetryMiddleware`
(`list.go` lines 738-799). When the request carries a body, `io.ReadAll`
captures its bytes into `originalBody` and the body is closed, leaving
`req.Body` non-nil but fully consumed (readable content `some []`); the
source does not reinstate it before the first attempt. -/
def NewRetryMiddlewareRoundTrip (options : RetryOptions)
    (sr : Option Response → Option GoErr → Bool) (env : RetryEnv)
    (reqBody : Option Bytes) : EngineResult :=
  let originalBody := reqBody
  let body0 := reqBody.map fun _ => ([] : Bytes)
  listRetryLoop options sr env originalBody (options.MaxRetries + 1) 0 body0 [] []

/-- Retry loop of `RetryMiddleware.Do` in the middleware package (part_005
lines 74-96): `for retries < m.Config.MaxRetries && m.shouldRetry(resp, err)`.
`fuel` is `MaxRetries - retries`. `bodyBytes` is the captured body: every
retried request gets a fresh reader over those bytes via `cloneRequest`.
On context cancellation during the wait the source returns the *current*
`resp` together with the context error. -/
def retryMwLoop (cfg : RetryConfig) (sr : Option Response → Option GoErr → Bool)
    (env : RetryEnv) (bodyBytes : Option Bytes) :
    Nat → Nat → Option Response → Option GoErr → List (Option Bytes) → List Int → EngineResult
  | 0, _, resp, err, obs, waits => ⟨resp, err, obs, waits⟩
  | fuel + 1, retries, resp, err, obs, waits =>
    if sr resp err then
      let delay := exponentialBackoff cfg.RetryDelay retries cfg.MaxRetryDelay
      if env.ctxDone retries then ⟨resp, some .ctxCanceled, obs, waits⟩
      else
        let r := env.base (retries + 1)
        retryMwLoop cfg sr env bodyBytes fuel (retries + 1) r.1 r.2 (obs ++ [bodyBytes]) (waits ++ [delay])
    else ⟨resp, err, obs, waits⟩

/-- One call through `RetryMiddleware.Do` (part_005 lines 57-98). When the
request carries a body, `newBodyCloner` buffers its bytes and *replaces*
`req.Body` with a fresh reader over the buffered bytes before the initial
attempt, so the first invocation already observes the full bytes. -/
def RetryMiddlewareDo (cfg : RetryConfig) (sr : Option Response → Option GoErr → Bool)
    (env : RetryEnv) (reqBody : Option Bytes) : EngineResult :=
  let r0 := env.base 0
  retryMwLoop cfg sr env reqBody cfg.MaxRetries 0 r0.1 r0.2 [reqBody] []

/-- When the predicate refuses, the middleware-package loop returns the
current outcome unchanged, for any fuel. -/
theorem retryMwLoop_noRetry (cfg : RetryConfig) (sr : Option Response → Option GoErr → Bool)
    (env : RetryEnv) (b : Option Bytes) (resp : Option Response) (err : Option GoErr)
    (obs : List (Option Bytes)) (waits : List Int) (h : sr resp err = false) :
    ∀ f retries, retryMwLoop cfg sr env b f retries resp err obs waits = ⟨resp, err, obs, waits⟩ := by
  intro f retries
  cases f <;> simp [retryMwLoop, h]

/-- On a base Transport whose every invocation yields a retryable outcome
with no transport error and a never-firing context, the `list.go` loop runs
to budget exhaustion: it returns the outcome of invocation `MaxRetries` and
performs one invocation per remaining attempt. -/
theorem listRetryLoop_allRetryable (options : RetryOptions)
    (sr : Option Response → Option GoErr → Bool) (env : RetryEnv) (ob : Option Bytes)
    (H1 : ∀ i, (env.base i).2 = none) (H2 : ∀ i, sr (env.base i).1 none = true)
    (Hc : ∀ i, env.ctxDone i = false) :
    ∀ f attempt body obs waits, attempt + f = options.MaxRetries →
      (listRetryLoop options sr env ob (f + 1) attempt body obs waits).resp
          = (env.base options.MaxRetries).1
        ∧ (listRetryLoop options sr env ob (f + 1) attempt body obs waits).err = none
        ∧ (listRetryLoop options sr env ob (f + 1) attempt body obs waits).observed.length
          = obs.length + (f + 1) := by
  intro f
  induction f with
  | zero =>
    intro attempt body obs waits h
    have ha : attempt = options.MaxRetries := by omega
    subst ha
    simp [listRetryLoop, H1, H2]
  | succ f ih =>
    intro attempt body obs waits h
    have hne : (attempt == options.MaxRetries) = false := by
      simp only [beq_eq_false_iff_ne, ne_eq]
      omega
    have step := ih (attempt + 1)
      (if attempt != 0 && ob.isSome then ob else body)
      (obs ++ [if attempt != 0 && ob.isSome then ob else body])
      (waits ++ [match (env.base attempt).1 with
        | some resp =>
          if resp.statusCode == 429 then
            calculateRetryAfterDelay env.atoi env.parseTime env.now resp options attempt (env.rand attempt)
          else calculateBackoffDelay options attempt (env.rand attempt)
        | none => calculateBackoffDelay options attempt (env.rand attempt)])
      (by omega)
    simp only [listRetryLoop, H1, H2, Hc, Option.isSome_none, Bool.false_or, Bool.not_true,
      Bool.false_eq_true, if_false, hne, if_true] at step ⊢
    refine ⟨step.1, step.2.1, ?_⟩
    rw [step.2.2]
    simp
    omega

/-- Same exhaustion behaviour for the middleware-package loop. -/
theorem retryMwLoop_allRetryable (cfg : RetryConfig)
    (sr : Option Response → Option GoErr → Bool) (env : RetryEnv) (b : Option Bytes)
    (H1 : ∀ i, (env.base i).2 = none) (H2 : ∀ i, sr (env.base i).1 none = true)
    (Hc : ∀ i, env.ctxDone i = false) :
    ∀ f retries obs waits,
      (retryMwLoop cfg sr env b f retries (env.base retries).1 (env.base retries).2 obs waits).resp
          = (env.base (retries + f)).1
        ∧ (retryMwLoop cfg sr env b f retries (env.base retries).1 (env.base retries).2 obs waits).err
          = (env.base (retries + f)).2
        ∧ (retryMwLoop cfg sr env b f retries (env.base retries).1 (env.base retries).2 obs waits).observed.length
          = obs.length + f := by
  intro f
  induction f with
  | zero =>
    intro retries obs waits
    simp [retryMwLoop]
  | succ f ih =>
    intro retries obs waits
    have hsr : sr (env.base retries).1 (env.base retries).2 = true := by
      rw [H1 retries]; exact H2 retries
    have step := ih (retries + 1) (obs ++ [b])
      (waits ++ [exponentialBackoff cfg.RetryDelay retries cfg.MaxRetryDelay])
    simp only [retryMwLoop, hsr, Hc, if_true, Bool.false_eq_true, if_false] at step ⊢
    have harith : retries + 1 + f = retries + (f + 1) := by omega
    rw [harith] at step
    refine ⟨step.1, step.2.1, ?_⟩
    rw [step.2.2]
    simp
    omega

/-- When the context fires during the inter-attempt wait after invocation
`k` (all earlier outcomes retryable, budget not exhausted), the `list.go`
loop returns `(nil, ctx.Err())` having made exactly `k + 1` invocations and
without sleeping the `k`-th delay. -/
theorem listRetryLoop_cancelAt (options : RetryOptions)
    (sr : Option Response → Option GoErr → Bool) (env : RetryEnv) (ob : Option Bytes) (k : Nat)
    (H1 : ∀ i, i ≤ k → (env.base i).2 = none) (H2 : ∀ i, i ≤ k → sr (env.base i).1 none = true)
    (Hc : ∀ i, i < k → env.ctxDone i = false) (Hk : env.ctxDone k = true)
    (hkM : k < options.MaxRetries) :
    ∀ f attempt body obs waits, attempt ≤ k → attempt + f = options.MaxRetries →
      (listRetryLoop options sr env ob (f + 1) attempt body obs waits).resp = none
        ∧ (listRetryLoop options sr env ob (f + 1) attempt body obs waits).err = some .ctxCanceled
        ∧ (listRetryLoop options sr env ob (f + 1) attempt body obs waits).observed.length
          = obs.length + (k - attempt) + 1
        ∧ (listRetryLoop options sr env ob (f + 1) attempt body obs waits).waits.length
          = waits.length + (k - attempt) := by
  intro f
  induction f with
  | zero =>
    intro attempt body obs waits hak h
    omega
  | succ f ih =>
    intro attempt body obs waits hak h
    have hne : (attempt == options.MaxRetries) = false := by
      simp only [beq_eq_false_iff_ne, ne_eq]
      omega
    rcases Nat.lt_or_ge attempt k with hlt | hge
    · have step := ih (attempt + 1)
        (if attempt != 0 && ob.isSome then ob else body)
        (obs ++ [if attempt != 0 && ob.isSome then ob else body])
        (waits ++ [match (env.base attempt).1 with
          | some resp =>
            if resp.statusCode == 429 then
              calculateRetryAfterDelay env.atoi env.parseTime env.now resp options attempt (env.rand attempt)
            else calculateBackoffDelay options attempt (env.rand attempt)
          | none => calculateBackoffDelay options attempt (env.rand attempt)])
        (by omega) (by omega)
      simp only [listRetryLoop, H1 attempt (by omega), H2 attempt (by omega), Hc attempt hlt,
        Option.isSome_none, Bool.false_or, Bool.not_true, Bool.false_eq_true, if_false, hne,
        if_true] at step ⊢
      refine ⟨step.1, step.2.1, ?_, ?_⟩
      · rw [step.2.2.1]; simp; omega
      · rw [step.2.2.2]; simp; omega
    · have hak' : attempt = k := by omega
      subst hak'
      simp only [listRetryLoop, H1 attempt (by omega), H2 attempt (by omega), Hk,
        Option.isSome_none, Bool.false_or, Bool.not_true, Bool.false_eq_true, if_false, hne,
        if_true]
      simp

/-- Same cancellation point for the middleware-package loop: it returns the
*stale* response of invocation `k` together with the context error. -/
theorem retryMwLoop_cancelAt (cfg : RetryConfig)
    (sr : Option Response → Option GoErr → Bool) (env : RetryEnv) (b : Option Bytes) (k : Nat)
    (H1 : ∀ i, i ≤ k → (env.base i).2 = none) (H2 : ∀ i, i ≤ k → sr (env.base i).1 none = true)
    (Hc : ∀ i, i < k → env.ctxDone i = false) (Hk : env.ctxDone k = true) :
    ∀ f retries obs waits, retries ≤ k → retries + f = cfg.MaxRetries → k < cfg.MaxRetries →
      (retryMwLoop cfg sr env b f retries (env.base retries).1 (env.base retries).2 obs waits).resp
          = (env.base k).1
        ∧ (retryMwLoop cfg sr env b f retries (env.base retries).1 (env.base retries).2 obs waits).err
          = some .ctxCanceled
        ∧ (retryMwLoop cfg sr env b f retries (env.base retries).1 (env.base retries).2 obs waits).observed.length
          = obs.length + (k - retries)
        ∧ (retryMwLoop cfg sr env b f retries (env.base retries).1 (env.base retries).2 obs waits).waits.length
          = waits.length + (k - retries) := by
  intro f
  induction f with
  | zero =>
    intro retries obs waits hrk h hkM
    omega
  | succ f ih =>
    intro retries obs waits hrk h hkM
    have hsr : sr (env.base retries).1 (env.base retries).2 = true := by
      rw [H1 retries hrk]; exact H2 retries hrk
    rcases Nat.lt_or_ge retries k with hlt | hge
    · have step := ih (retries + 1) (obs ++ [b])
        (waits ++ [exponentialBackoff cfg.RetryDelay retries cfg.MaxRetryDelay])
        (by omega) (by omega) hkM
      simp only [retryMwLoop, hsr, Hc retries hlt, if_true, Bool.false_eq_true, if_false]
        at step ⊢
      refine ⟨step.1, step.2.1, ?_, ?_⟩
      · rw [step.2.2.1]; simp; omega
      · rw [step.2.2.2]; simp; omega
    · have hrk' : retries = k := by omega
      subst hrk'
      simp [retryMwLoop, hsr, Hk]

/-- Sample retry options for concrete evaluations: 3 extra attempts, 2ms
base delay, 30ms cap, factor 2, 0.1ms jitter, the default retryable codes. -/
def sampleOptions : RetryOptions :=
  { MaxRetries := 3
    MinRetryDelay := 2000000
    MaxRetryDelay := 30000000
    RetryableStatusCodes := [408, 429, 500, 502, 503, 504]
    RetryBackoffFactor := 2
    RetryJitter := 100000 }

/-- Sample retry config (middleware package) matching `sampleOptions`. -/
def sampleConfig : RetryConfig :=
  { MaxRetries := 3
    RetryDelay := 2000000
    MaxRetryDelay := 30000000
    RetryableStatusCodes := [408, 429, 500, 502, 503, 504] }

/-- Neutral oracles: zero jitter draw, failing parsers, time origin. -/
def neutralEnv : RetryEnv :=
  { base := fun _ => (none, none)
    ctxDone := fun _ => false
    rand := fun _ => 0
    atoi := fun _ => none
    parseTime := fun _ => none
    now := 0 }

/-- Base Transport answering 503 on every invocation. -/
def envAlways503 : RetryEnv := { neutralEnv with base := fun _ => (some ⟨503, ""⟩, none) }

/-- Base Transport answering 404 on every invocation. -/
def envAlways404 : RetryEnv := { neutralEnv with base := fun _ => (some ⟨404, ""⟩, none) }

/-- Base Transport answering 503 on invocations 0-2 and 200 afterwards. -/
def envFlaky3 : RetryEnv :=
  { neutralEnv with base := fun i => if i < 3 then (some ⟨503, ""⟩, none) else (some ⟨200, ""⟩, none) }

/-- Base Transport failing with a transport-level (network) error on every
invocation. -/
def envNetErr : RetryEnv := { neutralEnv with base := fun _ => (none, some .netError) }

/-- Base Transport answering 503; the context is cancelled from the wait
following invocation 1 on. -/
def envCancelAt1 : RetryEnv :=
  { neutralEnv with base := fun _ => (some ⟨503, ""⟩, none), ctxDone := fun i => i == 1 }

/-- Base Transport answering `500 + i` on invocation `i`; the context is
already cancelled at the first inter-attempt wait. -/
def envCancelNow : RetryEnv :=
  { neutralEnv with base := fun i => (some ⟨500 + i, ""⟩, none), ctxDone := fun _ => true }

/-- Claim C1: with `maxAttempts = N` (the `MaxRetries` knob), a base
Transport that returns a retryable status on every invocation is invoked
exactly `N + 1` times by one call through either retry engine, and the
response of the last invocation is returned; a base Transport that returns
a non-retryable status such as 404 causes an immediate return of that
response after a single invocation, with no retry and no delay. -/
theorem C1_retry_budget_and_terminal_status
    (options : RetryOptions) (cfg : RetryConfig) (env envT : RetryEnv)
    (body bodyT : Option Bytes) (rT : Response)
    (H1 : ∀ i, (env.base i).2 = none)
    (H2 : ∀ i, listDefaultShouldRetry options (env.base i).1 none = true)
    (H3 : ∀ i, defaultShouldRetry (env.base i).1 none = true)
    (Hc : ∀ i, env.ctxDone i = false)
    (HT : ∀ i, envT.base i = (some rT, none))
    (hT404 : rT.statusCode = 404)
    (hTnot : options.RetryableStatusCodes.contains 404 = false) :
    ((NewRetryMiddlewareRoundTrip options (listDefaultShouldRetry options) env body).observed.length
        = options.MaxRetries + 1
      ∧ (NewRetryMiddlewareRoundTrip options (listDefaultShouldRetry options) env body).resp
        = (env.base options.MaxRetries).1
      ∧ (NewRetryMiddlewareRoundTrip options (listDefaultShouldRetry options) env body).err = none)
    ∧ ((RetryMiddlewareDo cfg defaultShouldRetry env body).observed.length = cfg.MaxRetries + 1
      ∧ (RetryMiddlewareDo cfg defaultShouldRetry env body).resp = (env.base cfg.MaxRetries).1)
    ∧ NewRetryMiddlewareRoundTrip options (listDefaultShouldRetry options) envT bodyT
        = ⟨some rT, none, [bodyT.map fun _ => []], []⟩
    ∧ RetryMiddlewareDo cfg defaultShouldRetry envT bodyT = ⟨some rT, none, [bodyT], []⟩ := by
  have hl := listRetryLoop_allRetryable options (listDefaultShouldRetry options) env body
    H1 H2 Hc options.MaxRetries 0 (body.map fun _ => []) [] [] (by omega)
  have hp := retryMwLoop_allRetryable cfg defaultShouldRetry env body H1 H3 Hc
    cfg.MaxRetries 0 [body] []
  have hsrT : listDefaultShouldRetry options (some rT) none = false := by
    show options.RetryableStatusCodes.contains rT.statusCode = false
    rw [hT404]
    exact hTnot
  have hsrT5 : defaultShouldRetry (some rT) none = false := by
    simp [defaultShouldRetry, hT404]
  constructor
  · simp only [NewRetryMiddlewareRoundTrip]
    exact ⟨by rw [hl.2.2]; simp, hl.1, hl.2.1⟩
  constructor
  · simp only [RetryMiddlewareDo]
    constructor
    · rw [hp.2.2]; simp; omega
    · rw [hp.1]; simp
  constructor
  · simp [NewRetryMiddlewareRoundTrip, listRetryLoop, HT 0, hsrT]
  · simp [RetryMiddlewareDo, HT 0, retryMwLoop_noRetry cfg defaultShouldRetry envT bodyT
      (some rT) none [bodyT] [] hsrT5]

/-- Witness for C1 at a concrete input: `MaxRetries = 3`, an always-503
base makes 4 invocations through both engines; an always-404 base returns
at once with no wait. -/
theorem C1_retry_budget_and_terminal_status_witness :
    (NewRetryMiddlewareRoundTrip sampleOptions (listDefaultShouldRetry sampleOptions)
        envAlways503 (some [7])).observed.length = 4
    ∧ (RetryMiddlewareDo sampleConfig defaultShouldRetry envAlways503 (some [7])).observed.length = 4
    ∧ NewRetryMiddlewareRoundTrip sampleOptions (listDefaultShouldRetry sampleOptions)
        envAlways404 none = ⟨some ⟨404, ""⟩, none, [none], []⟩ := by
  have h := C1_retry_budget_and_terminal_status sampleOptions sampleConfig envAlways503
    envAlways404 (some [7]) none ⟨404, ""⟩ (fun i => rfl) (fun i => rfl) (fun i => rfl)
    (fun i => rfl) (fun i => rfl) rfl (by decide)
  exact ⟨h.1.1, h.2.1.1, h.2.2.1⟩

/-- Claim C2 (code bug in `list.go`): the body-replay invariant fails on
the *first* attempt of the `list.go` engine. `io.ReadAll` consumes
`req.Body` into `originalBody` and the body is only reinstated for
`attempt > 0`, so invocation 0 of the base Transport observes an
already-consumed (empty) body. The middleware-package engine (part_005)
reinstates the buffered bytes before the initial attempt and is correct:
all 4 invocations observe the identical bytes. -/
theorem C2_first_attempt_body_consumed :
    (NewRetryMiddlewareRoundTrip sampleOptions (listDefaultShouldRetry sampleOptions)
        envFlaky3 (some [1, 2, 3])).observed
      = [some [], some [1, 2, 3], some [1, 2, 3], some [1, 2, 3]]
    ∧ (RetryMiddlewareDo sampleConfig defaultShouldRetry envFlaky3 (some [1, 2, 3])).observed
      = [some [1, 2, 3], some [1, 2, 3], some [1, 2, 3], some [1, 2, 3]] := by decide

/-- Claim C3 (code bug in `list.go`): the loop condition
`if err != nil || !options.ShouldRetry(resp, err)` returns *any* transport
error immediately, although the default predicate it installs classifies
every transport error as retryable ("Retry on network errors (which are
typically transient)"). On a base Transport that always fails with a
network error the `list.go` engine performs exactly 1 invocation and no
wait, while the middleware-package engine retries to budget exhaustion
(4 invocations, 3 waits). -/
theorem C3_transport_error_short_circuit :
    listDefaultShouldRetry sampleOptions none (some .netError) = true
    ∧ NewRetryMiddlewareRoundTrip sampleOptions (listDefaultShouldRetry sampleOptions)
        envNetErr none = ⟨none, some .netError, [none], []⟩
    ∧ RetryMiddlewareDo sampleConfig defaultShouldRetry envNetErr none
      = ⟨none, some .netError, [none, none, none, none], [2000000, 4000000, 8000000]⟩ := by
  decide

/-- Claim C4 (amended): when the call's context fires during the
inter-attempt wait after invocation `k` (earlier outcomes retryable,
budget not exhausted), both engines abandon the wait, perform no further
invocation, and return the cancellation error; the `list.go` engine
returns no response at all, while the middleware-package engine returns
the stale response of invocation `k` *alongside* the cancellation error. -/
theorem C4_cancellation_during_wait
    (options : RetryOptions) (cfg : RetryConfig) (env : RetryEnv) (body : Option Bytes) (k : Nat)
    (H1 : ∀ i, i ≤ k → (env.base i).2 = none)
    (H2 : ∀ i, i ≤ k → listDefaultShouldRetry options (env.base i).1 none = true)
    (H3 : ∀ i, i ≤ k → defaultShouldRetry (env.base i).1 none = true)
    (Hc : ∀ i, i < k → env.ctxDone i = false) (Hk : env.ctxDone k = true)
    (hkO : k < options.MaxRetries) (hkC : k < cfg.MaxRetries) :
    ((NewRetryMiddlewareRoundTrip options (listDefaultShouldRetry options) env body).resp = none
      ∧ (NewRetryMiddlewareRoundTrip options (listDefaultShouldRetry options) env body).err
        = some .ctxCanceled
      ∧ (NewRetryMiddlewareRoundTrip options (listDefaultShouldRetry options) env body).observed.length
        = k + 1)
    ∧ ((RetryMiddlewareDo cfg defaultShouldRetry env body).resp = (env.base k).1
      ∧ (RetryMiddlewareDo cfg defaultShouldRetry env body).err = some .ctxCanceled
      ∧ (RetryMiddlewareDo cfg defaultShouldRetry env body).observed.length = k + 1) := by
  have hl := listRetryLoop_cancelAt options (listDefaultShouldRetry options) env body k
    H1 H2 Hc Hk hkO options.MaxRetries 0 (body.map fun _ => []) [] [] (by omega) (by omega)
  have hp := retryMwLoop_cancelAt cfg defaultShouldRetry env body k H1 H3 Hc Hk
    cfg.MaxRetries 0 [body] [] (by omega) (by omega) hkC
  constructor
  · simp only [NewRetryMiddlewareRoundTrip]
    exact ⟨hl.1, hl.2.1, by rw [hl.2.2.1]; simp⟩
  · simp only [RetryMiddlewareDo]
    exact ⟨hp.1, hp.2.1, by rw [hp.2.2.1]; simp; omega⟩

/-- Witness for C4 at a concrete input: cancellation fires during the wait
after invocation 1 of an always-503 base. -/
theorem C4_cancellation_during_wait_witness :
    ((NewRetryMiddlewareRoundTrip sampleOptions (listDefaultShouldRetry sampleOptions)
        envCancelAt1 (some [7])).err = some .ctxCanceled
      ∧ (NewRetryMiddlewareRoundTrip sampleOptions (listDefaultShouldRetry sampleOptions)
        envCancelAt1 (some [7])).observed.length = 2)
    ∧ ((RetryMiddlewareDo sampleConfig defaultShouldRetry envCancelAt1 none).resp
        = some ⟨503, ""⟩
      ∧ (RetryMiddlewareDo sampleConfig defaultShouldRetry envCancelAt1 none).err
        = some .ctxCanceled) := by
  have h1 := C4_cancellation_during_wait sampleOptions sampleConfig envCancelAt1 (some [7]) 1
    (fun i _ => rfl) (fun i _ => rfl) (fun i _ => rfl)
    (by intro i hi; interval_cases i; rfl) rfl (by decide) (by decide)
  have h2 := C4_cancellation_during_wait sampleOptions sampleConfig envCancelAt1 none 1
    (fun i _ => rfl) (fun i _ => rfl) (fun i _ => rfl)
    (by intro i hi; interval_cases i; rfl) rfl (by decide) (by decide)
  exact ⟨⟨h1.1.2.1, h1.1.2.2⟩, ⟨h2.2.1, h2.2.2.1⟩⟩

/-- Counterexample to C4 as stated: in the middleware-package engine the
stale response of an earlier attempt *is* delivered to the caller. With the
context already cancelled at the first wait, `RetryMiddleware.Do` returns
the pair `(resp of invocation 0, ctx.Err())` — the response component is
the stale 500-response of attempt 0, not nil. -/
theorem C4_stale_response_counterexample :
    RetryMiddlewareDo sampleConfig defaultShouldRetry envCancelNow none
      = ⟨some ⟨500, ""⟩, some .ctxCanceled, [none], []⟩
    ∧ (RetryMiddlewareDo sampleConfig defaultShouldRetry envCancelNow none).resp ≠ none := by
  decide

/-- Claim C5 (amended): `calculateRetryAfterDelay` on a non-empty
"Retry-After" value: an indication parseable as an integer `s` is used as
`s` seconds with no `MaxRetryDelay` cap (even a negative integer is used
as-is); otherwise an indication parseable as an absolute time whose
remaining duration `d - now` is *strictly positive* is used uncapped, while
a zero or negative remaining duration falls back to the exponential-backoff
computation; an unparseable indication falls back to the
exponential-backoff computation. -/
theorem C5_retry_after_directive
    (atoi parseTime : String → Option Int) (now : Int) (resp : Response)
    (options : RetryOptions) (attempt : Nat) (u : Rat)
    (hne : resp.retryAfter ≠ "") :
    (∀ s, atoi resp.retryAfter = some s →
      calculateRetryAfterDelay atoi parseTime now resp options attempt u = s * 1000000000)
    ∧ (∀ d, atoi resp.retryAfter = none → parseTime resp.retryAfter = some d → 0 < d - now →
      calculateRetryAfterDelay atoi parseTime now resp options attempt u = d - now)
    ∧ (∀ d, atoi resp.retryAfter = none → parseTime resp.retryAfter = some d → d - now ≤ 0 →
      calculateRetryAfterDelay atoi parseTime now resp options attempt u
        = calculateBackoffDelay options attempt u)
    ∧ (atoi resp.retryAfter = none → parseTime resp.retryAfter = none →
      calculateRetryAfterDelay atoi parseTime now resp options attempt u
        = calculateBackoffDelay options attempt u) := by
  refine ⟨?_, ?_, ?_, ?_⟩
  · intro s hs
    simp [calculateRetryAfterDelay, hne, hs]
  · intro d h1 h2 h3
    simp [calculateRetryAfterDelay, hne, h1, h2, h3]
  · intro d h1 h2 h3
    rw [calculateRetryAfterDelay, if_pos hne, h1, h2]
    simp only [if_neg (by omega : ¬ 0 < d - now)]
  · intro h1 h2
    simp [calculateRetryAfterDelay, hne, h1, h2]

/-- Witness for C5 at concrete inputs: an indication parsed as the integer
2 yields a 2-second delay even though `MaxRetryDelay` is 30ms (no cap); an
indication parsed as a time 4µs in the future yields that duration; an
unparseable indication yields the backoff fallback. -/
theorem C5_retry_after_directive_witness :
    calculateRetryAfterDelay (fun _ => some 2) (fun _ => none) 0 ⟨429, "2"⟩ sampleOptions 0 0
      = 2 * 1000000000
    ∧ calculateRetryAfterDelay (fun _ => none) (fun _ => some 5000) 1000 ⟨429, "d"⟩ sampleOptions 0 0
      = 5000 - 1000
    ∧ calculateRetryAfterDelay (fun _ => none) (fun _ => none) 0 ⟨429, "x"⟩ sampleOptions 0 0
      = calculateBackoffDelay sampleOptions 0 0 := by
  have h1 := C5_retry_after_directive (fun _ => some 2) (fun _ => none) 0 ⟨429, "2"⟩
    sampleOptions 0 0 (by decide)
  have h2 := C5_retry_after_directive (fun _ => none) (fun _ => some 5000) 1000 ⟨429, "d"⟩
    sampleOptions 0 0 (by decide)
  have h3 := C5_retry_after_directive (fun _ => none) (fun _ => none) 0 ⟨429, "x"⟩
    sampleOptions 0 0 (by decide)
  exact ⟨h1.1 2 rfl, h2.2.1 5000 rfl rfl (by decide), h3.2.2.2 rfl rfl⟩

/-- Counterexample to C5 as stated: a wait indication parseable as an
absolute timestamp exactly equal to `now` is a parseable, non-negative
indication (remaining wait 0), so the claim demands a delay of
`max(0, 0) = 0`; the code's `delay > 0` guard rejects it and falls back to
the exponential backoff, here 2ms ≠ 0. -/
theorem C5_zero_until_date_counterexample :
    calculateRetryAfterDelay (fun _ => none) (fun _ => some 1000) 1000 ⟨429, "date"⟩
      sampleOptions 0 0 = 2000000
    ∧ (2000000 : Int) ≠ 0 := by decide

/-- `wrap64` is the identity on values already in the `int64` range. -/
theorem wrap64_eq_self (x : Int) (h1 : -(2 ^ 63) ≤ x) (h2 : x < 2 ^ 63) : wrap64 x = x := by
  unfold wrap64
  rw [Int.emod_eq_of_lt (by omega) (by omega)]
  omega

/-- Claim C6 (amended): (i) in the middleware-package engine
(`exponentialBackoff`, factor fixed at 2) the non-jitter delay equals
`min(baseDelay * 2^attempt, maxDelay)` whenever `baseDelay * 2^attempt`
fits below `2^63` (no `int64` overflow); (ii) in the `list.go` engine the
jitter component added by `calculateBackoffDelay` on top of its
millisecond-truncated, capped base component is a value in
`[0, RetryJitter]` for any random draw `u ∈ [0, 1]`. -/
theorem C6_backoff_formula
    (b maxD : Int) (a : Nat) (options : RetryOptions) (u : Rat)
    (hb : 0 ≤ b) (hm : 0 ≤ maxD) (hfit : b * 2 ^ a < 2 ^ 63)
    (hj : 0 ≤ options.RetryJitter) (hu0 : 0 ≤ u) (hu1 : u ≤ 1) :
    exponentialBackoff b a maxD = min (b * 2 ^ a) maxD
    ∧ ∃ j, 0 ≤ j ∧ j ≤ options.RetryJitter
        ∧ calculateBackoffDelay options a u = calculateBackoffBase options a + j := by
  constructor
  · unfold exponentialBackoff
    have hpow : (0 : Int) < 2 ^ a := by positivity
    rcases eq_or_lt_of_le hb with hb0 | hbpos
    · rw [← hb0]
      rw [show (0 : Int) * wrap64 (2 ^ a) = 0 by ring,
        wrap64_eq_self 0 (by norm_num) (by norm_num)]
      simp only [zero_mul, Int.min_def]
      split
      · omega
      · omega
    · have h2a : (2 : Int) ^ a < 2 ^ 63 := by
        calc (2 : Int) ^ a = 1 * 2 ^ a := by ring
        _ ≤ b * 2 ^ a := by
            exact mul_le_mul_of_nonneg_right (by omega) (le_of_lt hpow)
        _ < 2 ^ 63 := hfit
      rw [wrap64_eq_self (2 ^ a) (by omega) h2a,
        wrap64_eq_self (b * 2 ^ a)
          (by have := mul_nonneg hb (le_of_lt hpow); omega) hfit]
      rcases le_or_lt (b * 2 ^ a) maxD with hle | hgt
      · rw [if_neg (by omega), min_eq_left hle]
      · rw [if_pos hgt, min_eq_right (le_of_lt hgt)]
  · rcases lt_or_eq_of_le hj with hjpos | hj0
    · refine ⟨floorMulRat options.RetryJitter u, ?_, ?_, ?_⟩
      · exact Int.ediv_nonneg
          (mul_nonneg hj (Rat.num_nonneg.mpr hu0))
          (by exact_mod_cast Nat.zero_le u.den)
      · have hnd : u.num ≤ (u.den : Int) := by
          have := Rat.le_def.mp hu1
          simpa using this
        have hdpos : (0 : Int) < (u.den : Int) := by exact_mod_cast u.den_pos
        calc floorMulRat options.RetryJitter u
            ≤ options.RetryJitter * (u.den : Int) / (u.den : Int) := by
              exact Int.ediv_le_ediv hdpos (mul_le_mul_of_nonneg_left hnd hj)
          _ = options.RetryJitter := Int.mul_ediv_cancel _ (by omega)
      · unfold calculateBackoffDelay
        rw [if_pos hjpos]
    · refine ⟨0, le_refl 0, hj, ?_⟩
      unfold calculateBackoffDelay
      rw [if_neg (by omega)]
      omega

/-- Witness for C6 at a concrete input: 2ms base delay, attempt 2, 30ms
cap, and a zero random draw. -/
theorem C6_backoff_formula_witness :
    exponentialBackoff 2000000 2 30000000 = min ((2000000 : Int) * 2 ^ 2) 30000000
    ∧ ∃ j, 0 ≤ j ∧ j ≤ sampleOptions.RetryJitter
        ∧ calculateBackoffDelay sampleOptions 2 0 = calculateBackoffBase sampleOptions 2 + j := by
  exact C6_backoff_formula 2000000 30000000 2 sampleOptions 0 (by decide) (by decide)
    (by decide) (by decide) (le_refl 0) (by norm_num)

/-- Counterexample to C6 as stated (for every attempt index): at attempt
index 64 the Go shift `1 << 64` on `int64` yields 0, so
`exponentialBackoff` returns a delay of 0 where the claimed formula
`min(baseDelay * 2^64, maxDelay)` demands the 30s cap. -/
theorem C6_overflow_counterexample :
    exponentialBackoff 200000000 64 30000000000 = 0
    ∧ min ((200000000 : Int) * 2 ^ 64) 30000000000 = 30000000000
    ∧ (0 : Int) ≠ 30000000000 := by decide

/-- Error messages treated as disconnection indicators
(`disconnect.go` lines 92-99). -/
def netErrSubstrings : List String :=
  ["connection refused", "no such host", "host unreachable", "i/o timeout",
    "network is unreachable", "connection reset by peer"]

/-- `strings.Contains` on the underlying character lists. -/
def containsSubstr (s pat : String) : Bool := decide (pat.toList <:+: s.toList)

/-- `DisconnectMiddleware.isNetworkError` (`disconnect.go` lines 74-100):
a `net.Error`, a `*url.Error` wrapping a `net.Error`, or any error whose
message contains one of the known disconnection phrases. The context
cancellation error is none of these. -/
def isNetworkError : Option GoErr → Bool
  | none => false
  | some .netError => true
  | some .urlNetError => true
  | some .ctxCanceled => false
  | some (.otherError msg) => netErrSubstrings.any fun p => containsSubstr msg p

/-- Callback events fired by the connectivity tracker. -/
inductive DiscEvent where
  | onDisconnect
  | onReconnect
deriving DecidableEq, Repr

/-- One pass of `DisconnectMiddleware.Do` (`disconnect.go` lines 51-71) as
a transition on the `connected` flag, returning the new flag and the
callbacks fired: a network-classified error routes through
`handleDisconnect` (lines 102-113, which fires `OnDisconnect` only while
`connected`); otherwise a success while disconnected routes through
`handleReconnect` (lines 115-126). The response/error outcome itself is
forwarded to the caller unchanged. -/
def discStep (connected : Bool) (err : Option GoErr) : Bool × List DiscEvent :=
  if isNetworkError err then
    if connected then (false, [.onDisconnect]) else (false, [])
  else if !connected && err.isNone then (true, [.onReconnect])
  else (connected, [])

/-- Folding `discStep` over a sequence of call outcomes from a given
initial flag: final flag and concatenated callback trace. -/
def discRun (init : Bool) (outcomes : List (Option GoErr)) : Bool × List DiscEvent :=
  outcomes.foldl (fun acc o =>
    let s := discStep acc.1 o
    (s.1, acc.2 ++ s.2)) (init, [])

/-- Claim C7: from the initial `connected = true` state the outcome
sequence [disconnect error, disconnect error, success] fires exactly
`onDisconnect` then `onReconnect`, in that order; in general
`onDisconnect` fires at a step iff the tracker was connected and the
outcome is a disconnect-classified error, and `onReconnect` fires iff it
was disconnected and the outcome is a success — so repeated outcomes of
the same kind never re-fire a callback. -/
theorem C7_edge_triggered_callbacks :
    (discRun true [some .netError, some .netError, none]).2
      = [DiscEvent.onDisconnect, DiscEvent.onReconnect]
    ∧ ∀ (c : Bool) (o : Option GoErr),
      (DiscEvent.onDisconnect ∈ (discStep c o).2 ↔ (c = true ∧ isNetworkError o = true))
      ∧ (DiscEvent.onReconnect ∈ (discStep c o).2 ↔ (c = false ∧ o = none)) := by
  constructor
  · decide
  · intro c o
    rcases o with _ | e
    · cases c <;> simp [discStep, isNetworkError]
    · cases hnet : isNetworkError (some e) <;> cases c <;> simp [discStep, hnet]

/-- Display value of a multi-valued header in `logHeaders`
(`middleware_logging.go` lines 149-153): the first value, annotated with
the count of further values (`http.Header` values are non-empty). -/
def logHeaderDisplayValue (values : List String) : String :=
  let value := values.headD ""
  if 1 < values.length then
    value ++ " (+" ++ toString (values.length - 1) ++ " more)"
  else value

/-- Redaction loop of `logHeaders` (lines 155-161): replace the display
value by the fixed placeholder when the header name matches an entry of
the redaction list — case-sensitive string equality. -/
def redactValue (key value : String) (redactedHeaders : List String) : String :=
  if redactedHeaders.contains key then "[REDACTED]" else value

/-- `logHeaders` (`middleware_logging.go` lines 148-166): one emitted
`"  key: value"` line per header, with redaction applied. -/
def logHeaders (headers : List (String × List String)) (redactedHeaders : List String) :
    List String :=
  headers.map fun kv =>
    "  " ++ kv.1 ++ ": " ++ redactValue kv.1 (logHeaderDisplayValue kv.2) redactedHeaders

/-- Request slice relevant to the logging middleware. -/
structure HttpRequest where
  headers : List (String × List String)
  body : Option Bytes
deriving DecidableEq, Repr

/-- Request handed to the wrapped Transport by `NewLoggingMiddleware`
(`middleware_logging.go` lines 56-88): headers are never modified; when
body logging is on, the body is drained by `io.ReadAll` and reinstated as
a fresh reader over the same bytes. -/
def loggingForwardedRequest (logRequestBody : Bool) (req : HttpRequest) : HttpRequest :=
  match logRequestBody, req.body with
  | true, some bs => { headers := req.headers, body := some bs }
  | _, _ => req

/-- The emitted log lines do not depend on the values of redacted headers:
replacing every redacted header's value list leaves the output unchanged. -/
theorem logHeaders_redaction_independent (redacted : List String) (vs : List String)
    (headers : List (String × List String)) :
    logHeaders (headers.map fun kv => if redacted.contains kv.1 then (kv.1, vs) else kv) redacted
      = logHeaders headers redacted := by
  unfold logHeaders
  rw [List.map_map]
  apply List.map_congr_left
  intro kv _
  by_cases hr : kv.1 ∈ redacted
  · simp [Function.comp, redactValue, hr]
  · simp [Function.comp, redactValue, hr]

/-- Claim C8: a header whose name exactly (case-sensitively) matches the
redaction list is emitted as the fixed placeholder line, the emitted
output is invariant under changing the values of redacted headers (their
literal values are never emitted), and the wrapped Transport still
receives the original headers and original body bytes. -/
theorem C8_header_redaction
    (headers : List (String × List String)) (redacted : List String)
    (key : String) (values vs : List String) (req : HttpRequest)
    (hred : redacted.contains key = true) :
    ("  " ++ key ++ ": " ++ "[REDACTED]") ∈ logHeaders ((key, values) :: headers) redacted
    ∧ logHeaders (headers.map fun kv => if redacted.contains kv.1 then (kv.1, vs) else kv) redacted
      = logHeaders headers redacted
    ∧ loggingForwardedRequest true req = req := by
  refine ⟨?_, logHeaders_redaction_independent redacted vs headers, ?_⟩
  · have hred' : key ∈ redacted := by simpa using hred
    simp [logHeaders, redactValue, hred']
  · rcases req with ⟨hs, _ | bs⟩ <;> rfl

/-- Witness for C8 at a concrete input: an `Authorization` header is
emitted redacted and the forwarded request is untouched. -/
theorem C8_header_redaction_witness :
    ("  Authorization: [REDACTED]")
      ∈ logHeaders [("Authorization", ["secret-token"]), ("Accept", ["json"])]
        ["Authorization", "Api-Key"]
    ∧ loggingForwardedRequest true ⟨[("Authorization", ["secret-token"])], some [1, 2]⟩
      = ⟨[("Authorization", ["secret-token"])], some [1, 2]⟩ := by
  have h := C8_header_redaction [("Accept", ["json"])] ["Authorization", "Api-Key"]
    "Authorization" ["secret-token"] ["x"]
    ⟨[("Authorization", ["secret-token"])], some [1, 2]⟩ (by decide)
  exact ⟨h.1, h.2.2⟩

/-- Failure observable only when the composed Transport is invoked. -/
inductive RunErr where
  | nilPanic
deriving DecidableEq, Repr

/-- `HTTPDoer` interface value (part_016 lines 93-96): `none` models a nil
interface value, whose `Do` method panics when called. -/
abbrev HTTPDoer := Option (Nat → Nat)

/-- `Chain` (part_016 lines 98-102). -/
structure Chain where
  middlewares : List (HTTPDoer → HTTPDoer)
  client : HTTPDoer

/-- `NewChain` (part_016 lines 104-109): stores the client with no nil
check and returns the chain — composition cannot fail. -/
def NewChain (client : HTTPDoer) : Chain := ⟨[], client⟩

/-- `Chain.Use` (part_016 lines 111-115). -/
def chainUse (c : Chain) (m : HTTPDoer → HTTPDoer) : Chain :=
  ⟨c.middlewares ++ [m], c.client⟩

/-- `Chain.Build` (part_016 lines 117-125): apply middlewares in reverse
order so the first-added one is the outermost wrapper. -/
def chainBuild (c : Chain) : HTTPDoer :=
  c.middlewares.reverse.foldl (fun result m => m result) c.client

/-- Invoking an `HTTPDoer` value: calling `Do` on a nil interface value is
a run-time panic, surfaced only at this first invocation. -/
def chainInvoke (d : HTTPDoer) (req : Nat) : Except RunErr Nat :=
  match d with
  | none => .error .nilPanic
  | some f => .ok (f req)

/-- Claim C9 (amended): composition raises no error for *any* base —
`NewChain` and `Build` are total and perform no nil check. With a non-nil
base the built Transport delegates to it; with a nil base composition
still succeeds and the failure surfaces only at the first invocation of
the composed Transport (nil-interface panic), i.e. it is deferred, not
fail-fast. -/
theorem C9_nil_base_deferred (f : Nat → Nat) (req : Nat) :
    chainInvoke (chainBuild (NewChain (some f))) req = .ok (f req)
    ∧ chainBuild (NewChain none) = none
    ∧ chainInvoke (chainBuild (NewChain none)) req = .error .nilPanic :=
  ⟨rfl, rfl, rfl⟩

/-- Counterexample to C9 as stated: composing over a nil base Transport is
*not* surfaced at composition time. `NewChain nil` succeeds (a chain with
no middleware and the nil client), `Build` succeeds (returns the nil
Transport), and only invoking the result fails. -/
theorem C9_nil_base_counterexample :
    NewChain none = ⟨[], none⟩
    ∧ chainBuild (NewChain none) = none
    ∧ chainInvoke (chainBuild (NewChain none)) 0 = .error .nilPanic :=
  ⟨rfl, rfl, rfl⟩

/-- `http.RoundTripper` abstracted for composition-order observation: a
request carries the trace of middleware layers it has already passed
through (outermost first); a transport maps the incoming trace to the
final one. -/
abbrev RoundTripper := List String → List String

/-- `http.DefaultTransport`: performs the call, adding nothing. -/
def defaultTransport : RoundTripper := fun trace => trace

/-- Transport slot of an `http.Client` (`none` = nil = use the default
transport). -/
structure GoHttpClient where
  transport : Option RoundTripper

/-- `Client.WithMiddleware` (part_004 lines 50-68): take the current
transport — or `http.DefaultTransport` when nil — and replace it by the
middleware applied to it, so the newly added middleware becomes the
outermost wrapper. -/
def withMiddleware (c : GoHttpClient) (m : RoundTripper → RoundTripper) : GoHttpClient :=
  let transport :=
    match c.transport with
    | none => defaultTransport
    | some t => t
  { transport := some (m transport) }

/-- Invoking the client's transport (nil = default transport). -/
def clientRoundTrip (c : GoHttpClient) (trace : List String) : List String :=
  match c.transport with
  | none => defaultTransport trace
  | some t => t trace

/-- A middleware that tags the request trace with its name before
delegating to `next` — the observation instrument for composition order
(retry and logging wrappers both act on the request and then delegate). -/
def tagMiddleware (tag : String) : RoundTripper → RoundTripper :=
  fun next trace => next (trace ++ [tag])

/-- Repeated `Client.WithMiddleware` calls, as performed by
`WithRetryOptions` and `WithLoggingOptions` (middleware_client.go),
each wrapping the then-current transport. -/
def addTagMiddlewares (c : GoHttpClient) (tags : List String) : GoHttpClient :=
  tags.foldl (fun acc t => withMiddleware acc (tagMiddleware t)) c

/-- After adding tagged middlewares in order over transport `t0`, a request
reaches `t0` having passed the layers in reverse addition order. -/
theorem addTagMiddlewares_trace (tags : List String) :
    ∀ (t0 : RoundTripper) (trace : List String),
      clientRoundTrip (addTagMiddlewares ⟨some t0⟩ tags) trace = t0 (trace ++ tags.reverse) := by
  induction tags with
  | nil =>
    intro t0 trace
    simp [addTagMiddlewares, clientRoundTrip]
  | cons tag rest ih =>
    intro t0 trace
    have hstep : addTagMiddlewares ⟨some t0⟩ (tag :: rest)
        = addTagMiddlewares ⟨some (tagMiddleware tag t0)⟩ rest := by
      simp [addTagMiddlewares, withMiddleware]
    rw [hstep, ih]
    simp [tagMiddleware]

/-- Claim C10: each `Client.WithMiddleware` call wraps the client's
*current* transport in the new middleware, so the most recently added
middleware is the outermost wrapper and observes each request first:
after adding middlewares tagged `tags` in order, the original transport
receives the request with the layer trace in reverse addition order; and a
single `WithMiddleware` composes the new middleware outside the current
transport. Concretely, after `WithRetryOptions` then `WithLoggingOptions`
the logging layer observes the request before the retry layer. -/
theorem C10_last_added_outermost :
    (∀ (tags : List String) (t0 : RoundTripper) (trace : List String),
      clientRoundTrip (addTagMiddlewares ⟨some t0⟩ tags) trace = t0 (trace ++ tags.reverse))
    ∧ (∀ (c : GoHttpClient) (m : RoundTripper → RoundTripper) (trace : List String),
      clientRoundTrip (withMiddleware c m) trace = m (fun tr => clientRoundTrip c tr) trace)
    ∧ clientRoundTrip (addTagMiddlewares ⟨none⟩ ["retry", "logging"]) []
      = ["logging", "retry"] := by
  refine ⟨addTagMiddlewares_trace, ?_, rfl⟩
  intro c m trace
  rcases c with ⟨_ | t⟩ <;> rfl

end AnytypeGo
